import Mathlib

/-!
Shallow embedding of the ingestion/normalization core of
`src/streamlit_expenses.py` (the `load_data_from_notion` function,
lines 31-122), together with theorems settling the frozen claims.

Modelling conventions:
* Raw Notion API values (pages, property maps, property values) are JSON-like
  values, modelled by the inductive type `Json`.  Python `dict`s become
  association lists (`Json.obj`), Python lists become `Json.arr`.
* Python exceptions are modelled by `Except Unit`: any operation that can
  raise (`d[k]` on a missing key, `l[0]` on an empty list, `.get` on a
  non-dict, `float` of a non-numeric value) returns `.error ()` there.
* Monetary amounts are modelled as integers (the sign/zero behaviour is all
  the claims use); `float(x)` of a numeric string is modelled via
  `String.toInt?`.
* Timestamps are modelled as wall-clock minutes since the Unix epoch
  together with an optional timezone offset in minutes
  (`none` = timezone-naive).  Calendar-date arithmetic uses the standard
  civil-from-days conversion, so a timestamp `t` falls on epoch day
  `t.fdiv 1440`.  `pd.to_datetime(_, format='mixed')` is modelled by
  `parseDT`, a parser for the ISO-8601 date / date-time strings the Notion
  API emits ("YYYY-MM-DD", optionally "THH:MM[:SS]" and a "Z" or "±HH:MM"
  timezone suffix); strings outside this family fail to parse, modelling
  the `pd.to_datetime` exception.  The model's time resolution is one
  minute (a seconds field is validated but does not change the value).
* `'Asia/Kolkata'` is UTC+5:30 (offset `330` minutes) throughout the range
  of representable dates, so `tz_convert('Asia/Kolkata')` is modelled as a
  fixed `+330` minute offset change.
-/

/-- JSON-like values: the raw data shape returned by the Notion API. -/
inductive Json where
  | null : Json
  | bool (b : Bool) : Json
  | num (n : Int) : Json
  | str (s : String) : Json
  | arr (l : List Json) : Json
  | obj (l : List (String × Json)) : Json
deriving Repr

/-- Python truthiness (`if x:`) on JSON-like values. -/
def pyTruthy : Json → Bool
  | .null => false
  | .bool b => b
  | .num n => n != 0
  | .str s => s != ""
  | .arr l => !l.isEmpty
  | .obj l => !l.isEmpty

/-- Python `d.get(k, default)`: raises (`AttributeError`) unless `d` is a
dict, otherwise total. -/
def pyGet (j : Json) (k : String) (d : Json) : Except Unit Json :=
  match j with
  | .obj l => .ok ((l.lookup k).getD d)
  | _ => .error ()

/-- Python `d[k]` on a dict: raises on a missing key or a non-dict. -/
def pyIndex (j : Json) (k : String) : Except Unit Json :=
  match j with
  | .obj l =>
    match l.lookup k with
    | some v => .ok v
    | none => .error ()
  | _ => .error ()

/-- Python `l[0]`: raises on an empty list or a non-list. -/
def pyIndex0 (j : Json) : Except Unit Json :=
  match j with
  | .arr (x :: _) => .ok x
  | _ => .error ()

/-- Python `k in d` for a dict. -/
def pyHasKey (j : Json) (k : String) : Bool :=
  match j with
  | .obj l => (l.lookup k).isSome
  | _ => false

/-- Python `float(x)` restricted to the JSON values that can reach it;
non-numeric values raise. -/
def pyFloat : Json → Except Unit Int
  | .num n => .ok n
  | .bool b => .ok (if b then 1 else 0)
  | .str s =>
    match s.toInt? with
    | some n => .ok n
    | none => .error ()
  | _ => .error ()

/-- Gregorian leap year. -/
def isLeap (y : Int) : Bool := y % 4 = 0 && (y % 100 != 0 || y % 400 = 0)

/-- Days in a month of the proleptic Gregorian calendar. -/
def daysInMonth (y : Int) (m : Nat) : Nat :=
  if m = 2 then (if isLeap y then 29 else 28)
  else if m = 4 || m = 6 || m = 9 || m = 11 then 30
  else 31

/-- Days since 1970-01-01 of a civil date (standard civil-from-days
inverse, as used by datetime libraries). -/
def daysFromCivil (y : Int) (m d : Nat) : Int :=
  let y2 : Int := if m ≤ 2 then y - 1 else y
  let era : Int := (if 0 ≤ y2 then y2 else y2 - 399) / 400
  let yoe : Nat := (y2 - era * 400).toNat
  let mp : Nat := if 2 < m then m - 3 else m + 9
  let doy : Nat := (153 * mp + 2) / 5 + d - 1
  let doe : Nat := yoe * 365 + yoe / 4 - yoe / 100 + doy
  era * 146097 + (doe : Int) - 719468

/-- A parsed datetime: wall-clock minutes since the epoch plus an optional
timezone offset in minutes (`none` = naive). -/
structure ParsedDT where
  wall : Int
  tz : Option Int
deriving Repr, DecidableEq

/-- Python `s.split(sep)` for a one-character separator, on the character
list of the string. -/
def splitListOn (sep : Char) : List Char → List (List Char)
  | [] => [[]]
  | c :: rest =>
    let r := splitListOn sep rest
    if c = sep then [] :: r
    else
      match r with
      | g :: gs => (c :: g) :: gs
      | [] => [[c]]

/-- Decimal value of a digit string (callers validate digits first). -/
def charsToNat (l : List Char) : Nat :=
  l.foldl (fun n c => n * 10 + (c.toNat - 48)) 0

/-- Parse an exactly-`k`-digit decimal field. -/
def parseNatLen (k : Nat) (l : List Char) : Option Nat :=
  if l.length = k && l.all Char.isDigit then some (charsToNat l) else none

/-- Parse a zero-padded "YYYY-MM-DD" calendar date to its epoch day. -/
def parseDateL (l : List Char) : Option Int :=
  match splitListOn '-' l with
  | [ys, ms, ds] =>
    match parseNatLen 4 ys, parseNatLen 2 ms, parseNatLen 2 ds with
    | some y, some m, some d =>
      if 1 ≤ m && m ≤ 12 && 1 ≤ d && d ≤ daysInMonth (Int.ofNat y) m then
        some (daysFromCivil (Int.ofNat y) m d)
      else none
    | _, _, _ => none
  | _ => none

/-- Parse a "HH:MM" timezone-offset body to minutes. -/
def parseOffsetL (l : List Char) : Option Int :=
  match splitListOn ':' l with
  | [hs, ms] =>
    match parseNatLen 2 hs, parseNatLen 2 ms with
    | some h, some m =>
      if h ≤ 23 && m ≤ 59 then some (Int.ofNat (h * 60 + m)) else none
    | _, _ => none
  | _ => none

/-- Parse a "HH:MM" or "HH:MM:SS" time-of-day body to minutes. -/
def parseTimeBodyL (l : List Char) : Option Nat :=
  match splitListOn ':' l with
  | [hs, ms] =>
    match parseNatLen 2 hs, parseNatLen 2 ms with
    | some h, some m => if h ≤ 23 && m ≤ 59 then some (h * 60 + m) else none
    | _, _ => none
  | [hs, ms, ss] =>
    match parseNatLen 2 hs, parseNatLen 2 ms, parseNatLen 2 ss with
    | some h, some m, some sec =>
      if h ≤ 23 && m ≤ 59 && sec ≤ 59 then some (h * 60 + m) else none
    | _, _, _ => none
  | _ => none

/-- Parse the time portion of an ISO-8601 datetime, with an optional "Z"
or "±HH:MM" timezone suffix. -/
def parseTimeTzL (l : List Char) : Option (Nat × Option Int) :=
  let body_tz : Option (List Char × Option Int) :=
    if l.getLast? = some 'Z' then some (l.dropLast, some 0)
    else
      match splitListOn '+' l with
      | [c, o] => (parseOffsetL o).map (fun off => (c, some off))
      | [c] =>
        match splitListOn '-' c with
        | [c2, o] => (parseOffsetL o).map (fun off => (c2, some (-off)))
        | [c2] => some (c2, none)
        | _ => none
      | _ => none
  match body_tz with
  | some (c, tz) => (parseTimeBodyL c).map (fun mins => (mins, tz))
  | none => none

/-- Model of `pd.to_datetime` on the ISO-8601 strings the data source
emits: a date, optionally followed by `T`, a time and a timezone marker.
Anything else fails to parse (an exception in the source). -/
def parseDTL (l : List Char) : Option ParsedDT :=
  match splitListOn 'T' l with
  | [d] => (parseDateL d).map (fun days => ⟨days * 1440, none⟩)
  | [d, t] =>
    match parseDateL d, parseTimeTzL t with
    | some days, some (mins, tz) => some ⟨days * 1440 + Int.ofNat mins, tz⟩
    | _, _ => none
  | _ => none

/-- `parseDTL` on a string's characters. -/
def parseDT (s : String) : Option ParsedDT := parseDTL s.toList

/-- Minutes of offset of the fixed target timezone (`'Asia/Kolkata'`,
UTC+5:30). -/
def istOffset : Int := 330

/-- Lines 81-96 of the source: given the raw `date_value`, parse it
(assuming UTC when naive), convert to UTC+5:30, and drop the timezone;
on a parse failure, retry on the portion before the first `'T'` (that
result is stored without any timezone conversion); if that also raises,
the exception propagates to the row-level handler. An absent/falsy
`date_value` yields `none` (Python `None`). -/
def extractDate (dv : Json) : Except Unit (Option Int) :=
  if pyTruthy dv then
    match dv with
    | .str s =>
      match parseDT s with
      | some d => .ok (some (d.wall - d.tz.getD 0 + istOffset))
      | none =>
        match parseDTL ((splitListOn 'T' s.toList).headD []) with
        | some d => .ok (some d.wall)
        | none => .error ()
    | _ => .error ()
  else .ok none

/-- Lines 68-78 of the source: resolve the category from the property
value, dispatching on which representation key is present, in the order
`select`, `multi_select`, `rich_text`. -/
def extractCategory (categoryProp : Json) : Except Unit Json :=
  if pyTruthy categoryProp then
    if pyHasKey categoryProp "select" then do
      let sel ← pyIndex categoryProp "select"
      if pyTruthy sel then pyIndex sel "name" else .ok (.str "")
    else if pyHasKey categoryProp "multi_select" then do
      let ms ← pyIndex categoryProp "multi_select"
      if pyTruthy ms then do
        let first ← pyIndex0 ms
        pyIndex first "name"
      else .ok (.str "")
    else if pyHasKey categoryProp "rich_text" then do
      let rt ← pyIndex categoryProp "rich_text"
      if pyTruthy rt then do
        let first ← pyIndex0 rt
        let t ← pyIndex first "text"
        pyIndex t "content"
      else .ok (.str "")
    else .ok (.str "")
  else .ok (.str "")

/-- The shared first-fragment extraction of the `Name` (`title`) and
`Comment` (`rich_text`) fields, line 99 and line 103 of the source:
`properties.get(f, \x7b\x7d).get(k, [\x7b\x7d])[0].get("text", \x7b\x7d).get("content", "")`
when `properties.get(f, \x7b\x7d).get(k)` is truthy, else `""`. -/
def extractFirstFragment (properties : Json) (field listKey : String) :
    Except Unit Json := do
  let prop ← pyGet properties field (.obj [])
  let cond ← pyGet prop listKey .null
  if pyTruthy cond then
    let lst ← pyGet prop listKey (.arr [.obj []])
    let first ← pyIndex0 lst
    let t ← pyGet first "text" (.obj [])
    pyGet t "content" (.str "")
  else .ok (.str "")

/-- Line 100 of the source:
`float(properties.get("Amount", \x7b\x7d).get("number", 0) or 0)`. -/
def extractAmount (properties : Json) : Except Unit Int := do
  let amountProp ← pyGet properties "Amount" (.obj [])
  let number ← pyGet amountProp "number" (.num 0)
  pyFloat (if pyTruthy number then number else .num 0)

/-- A normalized expense record (one row of the produced table). -/
structure Row where
  name : Json
  amount : Int
  category : Json
  date : Option Int
  comment : Json
deriving Repr

/-- Lines 59-105 of the source: extract one page's fields, in the
evaluation order of the Python code (`properties` lookup, the `date_value`
chain, category, date parsing, then the row dict's `Name`, `Amount`,
`Comment`); any raise anywhere makes the whole row fail. -/
def processRow (page : Json) : Except Unit Row := do
  let properties ← pyIndex page "properties"
  let dateProp ← pyGet properties "Date" (.obj [])
  let dateField ← pyGet dateProp "date" (.obj [])
  let dateValue ← pyGet dateField "start" .null
  let categoryProp ← pyGet properties "Category" (.obj [])
  let category ← extractCategory categoryProp
  let date ← extractDate dateValue
  let name ← extractFirstFragment properties "Name" "title"
  let amount ← extractAmount properties
  let comment ← extractFirstFragment properties "Comment" "rich_text"
  .ok ⟨name, amount, category, date, comment⟩

/-- One page of query results from the remote source: its raw rows and its
`has_more` flag (the continuation cursor is modelled by list order). -/
structure NotionPage where
  results : List Json
  has_more : Bool

/-- Lines 37-55 of the source: the first page is always fetched; further
pages are fetched while the previous page reported `has_more`. -/
def collectPages : List NotionPage → List Json
  | [] => []
  | p :: rest => p.results ++ (if p.has_more then collectPages rest else [])

/-- The produced table: a column list plus rows. -/
structure DataFrame where
  columns : List String
  rows : List Row
deriving Repr

/-- The fixed output schema (line 112 of the source). -/
def expenseColumns : List String := ["Name", "Amount", "Category", "Date", "Comment"]

/-- The comparison `sort_values('Date')` sorts by (missing dates ordered
last, as pandas does; after the `dropna` no missing date remains). -/
def rowDateLE (a b : Row) : Bool :=
  match a.date, b.date with
  | some x, some y => x ≤ y
  | some _, none => true
  | none, some _ => false
  | none, none => true

/-- `rowDateLE` as a relation, for sorting. -/
def rowLE (a b : Row) : Prop := rowDateLE a b = true

instance : DecidableRel rowLE := fun a b => decEq (rowDateLE a b) true

instance : IsTotal Row rowLE where
  total a b := by
    unfold rowLE rowDateLE
    rcases a.date with _ | x <;> rcases b.date with _ | y <;> simp
    exact Int.le_total x y

instance : IsTrans Row rowLE where
  trans a b c := by
    unfold rowLE rowDateLE
    rcases a.date with _ | x <;> rcases b.date with _ | y <;>
      rcases c.date with _ | z <;> simp
    exact fun h h2 => le_trans h h2

/-- Lines 57-118 of the source, given the sequence of pages the remote
source would serve: accumulate raw rows over pagination, process each row
(dropping the ones whose extraction raised), and if nothing was processed
return an empty table with the fixed schema, else drop rows with a missing
date and sort ascending by date. -/
def load_data_from_notion (pages : List NotionPage) : DataFrame :=
  let results := collectPages pages
  let processed := results.filterMap (fun p => (processRow p).toOption)
  if processed.isEmpty then ⟨expenseColumns, []⟩
  else
    let kept := processed.filter (fun r => r.date.isSome)
    ⟨expenseColumns, List.insertionSort rowLE kept⟩

/-- The epoch day a timestamp falls on (its local calendar date). -/
def calendarDay (t : Int) : Int := t.fdiv 1440

/-- Minutes past local midnight of a timestamp. -/
def timeOfDay (t : Int) : Int := t % 1440

/-- Total lookup of a key in a JSON object (`null` when absent). -/
def jLookup (j : Json) (k : String) : Json :=
  match j with
  | .obj l => (l.lookup k).getD .null
  | _ => .null

/-- First element of a JSON array (`null` when empty or not an array). -/
def jFirst : Json → Json
  | .arr (x :: _) => x
  | _ => .null

/-- String content of a JSON value (`""` when not a string). -/
def jStr : Json → String
  | .str s => s
  | _ => ""

/-- The category rule as the spec words it (for comparison with
`extractCategory`): extract all three representations and take the first
NON-EMPTY one, in the order single-select, multi-select first entry,
rich-text first fragment; empty string when none is non-empty. -/
def categoryFirstNonEmptySpec (p : Json) : String :=
  let sel := jStr (jLookup (jLookup p "select") "name")
  let ms := jStr (jLookup (jFirst (jLookup p "multi_select")) "name")
  let rt := jStr (jLookup (jLookup (jFirst (jLookup p "rich_text")) "text") "content")
  if sel ≠ "" then sel else if ms ≠ "" then ms else rt

/-- A category property carrying an unset (null) single-select next to a
non-empty rich-text fragment. -/
def c1page : Json :=
  .obj [("select", .null),
        ("rich_text", .arr [.obj [("text", .obj [("content", .str "Food")])]])]

/-- C1 counterexample: on a row whose category property carries an unset
(null) single-select together with a non-empty rich-text fragment "Food",
the code's `elif` dispatch takes the (empty) select branch and yields `""`,
while the spec's first-NON-EMPTY-match rule yields "Food": emptiness does
not cause fallthrough to the next representation. -/
theorem c1_counterexample :
    extractCategory c1page = .ok (.str "") ∧
    categoryFirstNonEmptySpec c1page = "Food" ∧
    ("" : String) ≠ "Food" :=
  ⟨rfl, rfl, by decide⟩

/-- C1 (amended): category extraction checks the three representations in
the fixed priority order single-select, multi-select (first entry),
rich-text (first fragment), and the first PRESENT representation wins —
its extracted value, which is the empty string when that representation is
null or empty, with no fallthrough to later representations; in particular
when both a single-select and a rich-text representation are present the
single-select branch is chosen; a row with the category field absent
entirely yields the empty string. -/
theorem c1_category_priority :
    extractCategory (.obj []) = .ok (.str "") ∧
    (∀ (s : String) (rt : List Json),
      extractCategory (.obj [("select", .obj [("name", .str s)]),
        ("rich_text", .arr rt)]) = .ok (.str s)) ∧
    (∀ (s : String) (rest rt : List Json),
      extractCategory (.obj [("multi_select", .arr (.obj [("name", .str s)] :: rest)),
        ("rich_text", .arr rt)]) = .ok (.str s)) ∧
    (∀ (rt : List Json),
      extractCategory (.obj [("select", .null), ("rich_text", .arr rt)]) =
        .ok (.str "")) :=
  ⟨rfl, fun _ _ => rfl, fun _ _ _ => rfl, fun _ => rfl⟩

/-- C2 counterexample: the value stored for the row date
"2024-01-15T10:00:00Z" is minute 28422210 = 15:30 IST on 2024-01-15: the
time-of-day (930 minutes past local midnight) is retained after the
timezone is dropped, so the record's date is a full local timestamp, not
only the local calendar date. -/
theorem c2_counterexample :
    extractDate (.str "2024-01-15T10:00:00Z") = .ok (some 28422210) ∧
    timeOfDay 28422210 = 930 ∧ timeOfDay 28422210 ≠ 0 :=
  ⟨rfl, by decide, by decide⟩

/-- Helper: a date string that parses with no timezone marker is assumed
UTC and stored shifted by the IST offset. -/
theorem extractDate_parse_naive (s : String) (w : Int)
    (h : parseDT s = some ⟨w, none⟩) :
    extractDate (.str s) = .ok (some (w + istOffset)) := by
  have hs : (s != "") = true := by
    rcases eq_or_ne s "" with rfl | hne
    · rw [show parseDT "" = none from rfl] at h; cases h
    · simpa using hne
  simp [extractDate, pyTruthy, hs, parseDT] at h ⊢
  rw [h]
  simp

/-- Helper: a date string that parses with an explicit timezone offset is
converted from that offset to IST. -/
theorem extractDate_parse_tz (s : String) (w o : Int)
    (h : parseDT s = some ⟨w, some o⟩) :
    extractDate (.str s) = .ok (some (w - o + istOffset)) := by
  have hs : (s != "") = true := by
    rcases eq_or_ne s "" with rfl | hne
    · rw [show parseDT "" = none from rfl] at h; cases h
    · simpa using hne
  simp [extractDate, pyTruthy, hs, parseDT] at h ⊢
  rw [h]
  rfl

/-- C2 (amended): a row's date string is parsed with flexible format
detection; when it carries no timezone it is assumed UTC, it is converted
to the fixed target timezone UTC+5:30, and then only the *timezone* is
dropped: the record's date is the full local wall-clock timestamp
(whose date component is the local calendar date); the time-of-day is
retained, not discarded. -/
theorem c2_date_normalization (s : String) (w : Int) :
    (parseDT s = some ⟨w, none⟩ →
      extractDate (.str s) = .ok (some (w + istOffset))) ∧
    (∀ o : Int, parseDT s = some ⟨w, some o⟩ →
      extractDate (.str s) = .ok (some (w - o + istOffset))) :=
  ⟨extractDate_parse_naive s w, fun o => extractDate_parse_tz s w o⟩

/-- Witness for C2 (amended): the naive string "2024-01-15T10:00:00" is
assumed UTC and stored as 28421880 + 330 minutes (15:30 IST). -/
theorem c2_date_normalization_witness :
    extractDate (.str "2024-01-15T10:00:00") = .ok (some (28421880 + istOffset)) :=
  (c2_date_normalization "2024-01-15T10:00:00" 28421880).1 rfl

/-- C6 counterexample: for the unparseable date string "garbage" both the
full parse and the truncated date-only parse fail, and date extraction
RAISES (so the row is dropped by the row-level handler) instead of storing
a null date as the claim states. -/
theorem c6_counterexample :
    extractDate (.str "garbage") = .error () ∧
    extractDate (.str "garbage") ≠ .ok none := by
  refine ⟨rfl, fun h => ?_⟩
  rw [show extractDate (.str "garbage") = .error () from rfl] at h
  cases h

/-- C6 (amended): for a row carrying a date string whose full parse fails,
normalization falls back to truncating the string at the first `'T'` and
parsing the date-only portion (that result is stored without timezone
conversion); but if BOTH attempts fail, the extraction raises and the row
is excluded by row-level failure isolation — the record's date is null only
when the source carries no (or an empty) date string. -/
theorem c6_date_fallback (s : String) :
    (∀ (w : Int) (tz : Option Int), parseDT s = none →
      parseDTL ((splitListOn 'T' s.toList).headD []) = some ⟨w, tz⟩ →
      extractDate (.str s) = .ok (some w)) ∧
    (parseDT s = none → parseDTL ((splitListOn 'T' s.toList).headD []) = none →
      s ≠ "" → extractDate (.str s) = .error ()) ∧
    extractDate .null = .ok none := by
  refine ⟨?_, ?_, rfl⟩
  · intro w tz h hfb
    have hs : (s != "") = true := by
      rcases eq_or_ne s "" with rfl | hne
      · rw [show parseDTL ((splitListOn 'T' "".toList).headD []) = none from rfl] at hfb
        cases hfb
      · simpa using hne
    simp [extractDate, pyTruthy, hs, parseDT] at h hfb ⊢
    rw [h, hfb]
  · intro h hfb hne
    have hs : (s != "") = true := by simpa using hne
    simp [extractDate, pyTruthy, hs, parseDT] at h hfb ⊢
    rw [h, hfb]

/-- Witness for C6 (amended): "2024-01-15Txx" fails the full parse, and the
fallback parses the truncated "2024-01-15" to local midnight of epoch day
19737, stored without timezone conversion. -/
theorem c6_date_fallback_witness :
    extractDate (.str "2024-01-15Txx") = .ok (some 28421280) :=
  (c6_date_fallback "2024-01-15Txx").1 28421280 none rfl rfl

/-- C8: a date string with no timezone marker normalizes to the same
stored timestamp — hence the same local calendar date — as an equivalent
string carrying an explicit UTC marker, for every wall-clock value
(including combinations near local midnight). -/
theorem c8_naive_utc_agree (s1 s2 : String) (w : Int)
    (h1 : parseDT s1 = some ⟨w, none⟩) (h2 : parseDT s2 = some ⟨w, some 0⟩) :
    extractDate (.str s1) = .ok (some (w + istOffset)) ∧
    extractDate (.str s2) = .ok (some (w + istOffset)) ∧
    (∀ t1 t2 : Int, extractDate (.str s1) = .ok (some t1) →
      extractDate (.str s2) = .ok (some t2) → calendarDay t1 = calendarDay t2) := by
  have a1 : extractDate (.str s1) = .ok (some (w + istOffset)) :=
    extractDate_parse_naive s1 w h1
  have a2 : extractDate (.str s2) = .ok (some (w + istOffset)) := by
    have := extractDate_parse_tz s2 w 0 h2
    simpa using this
  refine ⟨a1, a2, fun t1 t2 e1 e2 => ?_⟩
  rw [a1] at e1
  rw [a2] at e2
  have b1 : w + istOffset = t1 := by
    simpa using e1
  have b2 : w + istOffset = t2 := by
    simpa using e2
  rw [← b1, ← b2]

/-- Witness for C8: "2024-01-15T18:45:00" (naive) and
"2024-01-15T18:45:00Z" (explicit UTC) both normalize to minute
28422405 + 330 = 00:15 IST on 2024-01-16 — a boundary case where the
conversion crosses local midnight into the next calendar day. -/
theorem c8_naive_utc_agree_witness :
    extractDate (.str "2024-01-15T18:45:00") = .ok (some (28422405 + istOffset)) ∧
    extractDate (.str "2024-01-15T18:45:00Z") = .ok (some (28422405 + istOffset)) := by
  have h := c8_naive_utc_agree "2024-01-15T18:45:00" "2024-01-15T18:45:00Z" 28422405 rfl rfl
  exact ⟨h.1, h.2.1⟩

/-- A raw row whose Amount number is a (truthy) list: `float` of it
raises. -/
def c4page : Json :=
  .obj [("properties", .obj [("Amount", .obj [("number", .arr [.num 1])])])]

/-- C4 counterexample: a row whose Amount number field holds a list — a
malformed field — makes the field extraction raise (`float` of a list);
the row-level handler then excludes the whole row from the result, so
field-level malformation does cause row loss. -/
theorem c4_counterexample :
    processRow c4page = .error () ∧
    (load_data_from_notion [⟨[c4page], false⟩]).rows = [] :=
  ⟨rfl, rfl⟩

/-- C4 (amended): a MISSING or null field degrades to its safe default
(empty string, zero amount, null date) with no exception and no row loss;
but a field value of an unexpected shape (such as a non-numeric amount)
makes the extraction raise, and the row is then dropped by the row-level
failure isolation. -/
theorem c4_field_defaults :
    processRow (.obj [("properties", .obj [])]) =
      .ok ⟨.str "", 0, .str "", none, .str ""⟩ ∧
    extractAmount (.obj [("Amount", .obj [("number", .null)])]) = .ok 0 ∧
    extractFirstFragment (.obj [("Name", .obj [("title", .arr [])])])
      "Name" "title" = .ok (.str "") ∧
    extractFirstFragment (.obj []) "Comment" "rich_text" = .ok (.str "") ∧
    pyFloat (.arr [.num 1]) = .error () :=
  ⟨rfl, rfl, rfl, rfl, rfl⟩

/-- A raw row with a negative amount and a valid date. -/
def c10page : Json :=
  .obj [("properties", .obj
    [("Amount", .obj [("number", .num (-5))]),
     ("Date", .obj [("date", .obj [("start", .str "2024-01-15")])])])]

/-- C10 counterexample: a source row with amount −5 and a valid date is
kept unchanged, so the produced table contains a record with a negative
amount — non-negativity is not enforced anywhere. -/
theorem c10_counterexample :
    (load_data_from_notion [⟨[c10page], false⟩]).rows.map Row.amount = [(-5 : Int)] ∧
    ¬ (∀ r ∈ (load_data_from_notion [⟨[c10page], false⟩]).rows, 0 ≤ r.amount) := by
  refine ⟨rfl, fun hall => ?_⟩
  have hmem : (⟨.str "", -5, .str "", some 28421610, .str ""⟩ : Row) ∈
      (load_data_from_notion [⟨[c10page], false⟩]).rows := by
    rw [show (load_data_from_notion [⟨[c10page], false⟩]).rows =
      [⟨.str "", -5, .str "", some 28421610, .str ""⟩] from rfl]
    exact List.mem_singleton_self _
  exact absurd (hall _ hmem) (by decide)

/-- C10 (amended): the amount of a produced record is the source's number
unchanged — negative values included, so non-negativity does not hold; a
row whose amount field is missing or null defaults to 0 rather than
causing a failure (a non-numeric amount instead raises, cf. C4). -/
theorem c10_amount_passthrough :
    extractAmount (.obj []) = .ok 0 ∧
    extractAmount (.obj [("Amount", .obj [])]) = .ok 0 ∧
    extractAmount (.obj [("Amount", .obj [("number", .null)])]) = .ok 0 ∧
    (∀ n : Int, extractAmount (.obj [("Amount", .obj [("number", .num n)])]) = .ok n) := by
  refine ⟨rfl, rfl, rfl, fun n => ?_⟩
  show pyFloat (if pyTruthy (.num n) then .num n else .num 0) = .ok n
  rcases eq_or_ne n 0 with rfl | h
  · rfl
  · simp [pyTruthy, pyFloat, h]

/-- The records that survive extraction and the date-validity filter. -/
def survivors (pages : List NotionPage) : List Row :=
  ((collectPages pages).filterMap (fun p => (processRow p).toOption)).filter
    (fun r => r.date.isSome)

/-- C9: when zero rows survive normalization, ingestion returns the empty
table that still carries the full fixed schema (Name, Amount, Category,
Date, Comment) — not an error and not a differently-shaped table. -/
theorem c9_empty_schema (pages : List NotionPage) (h : survivors pages = []) :
    load_data_from_notion pages = ⟨expenseColumns, []⟩ := by
  unfold survivors at h
  unfold load_data_from_notion
  by_cases hp : ((collectPages pages).filterMap (fun p => (processRow p).toOption)).isEmpty
  · simp [hp]
  · simp [hp, h]

/-- Witness for C9: a batch whose only row raises during extraction leaves
zero survivors, and the result is the empty table with the full schema. -/
theorem c9_empty_schema_witness :
    load_data_from_notion [⟨[.null], false⟩] = ⟨expenseColumns, []⟩ :=
  c9_empty_schema [⟨[.null], false⟩] rfl

/-- C3: every record of the produced table has a valid (non-null) date,
and the table is sorted ascending by date. -/
theorem c3_valid_dates_sorted (pages : List NotionPage) :
    (∀ r ∈ (load_data_from_notion pages).rows, r.date.isSome) ∧
    List.Sorted rowLE (load_data_from_notion pages).rows := by
  unfold load_data_from_notion
  by_cases hp : ((collectPages pages).filterMap (fun p => (processRow p).toOption)).isEmpty
  · simp [hp]
  · simp only [hp, Bool.false_eq_true, if_false]
    constructor
    · intro r hr
      have hmem : r ∈ ((collectPages pages).filterMap
          (fun p => (processRow p).toOption)).filter (fun r => r.date.isSome) :=
        (List.mem_insertionSort rowLE).1 hr
      exact (List.mem_filter.1 hmem).2
    · exact List.sorted_insertionSort rowLE _

/-- The length of a `filterMap` is the count of inputs the function
succeeds on. -/
theorem length_filterMap_eq_countP {α β : Type} (f : α → Option β) :
    ∀ l : List α, (l.filterMap f).length = l.countP (fun x => (f x).isSome)
  | [] => rfl
  | x :: xs => by
    rw [List.filterMap_cons, List.countP_cons]
    rcases h : f x with _ | b <;>
      simp [h, length_filterMap_eq_countP f xs]

/-- A boolean predicate and its negation count a list exhaustively. -/
theorem countP_bool_split {α : Type} (q : α → Bool) :
    ∀ l : List α, l.countP q + l.countP (fun x => !q x) = l.length
  | [] => rfl
  | x :: xs => by
    rw [List.countP_cons, List.countP_cons]
    cases h : q x <;> simp [h, ← countP_bool_split q xs] <;> omega

/-- A raw row that raises during extraction (not even a dict). -/
def c5bad : Json := .null

/-- A raw row that extracts fine but carries no date. -/
def c5nodate : Json := .obj [("properties", .obj [])]

/-- C5 counterexample: in a two-row batch where exactly the first row
throws during extraction, the other row extracts fine but carries no
date, so the final table has 0 rows — not "exactly one fewer than the
raw input" (which would be 1): the null-date drop removes surviving rows
beyond the one that threw. -/
theorem c5_counterexample :
    processRow c5bad = .error () ∧
    processRow c5nodate = .ok ⟨.str "", 0, .str "", none, .str ""⟩ ∧
    (load_data_from_notion [⟨[c5bad, c5nodate], false⟩]).rows.length = 0 ∧
    (load_data_from_notion [⟨[c5bad, c5nodate], false⟩]).rows.length ≠
      ([c5bad, c5nodate] : List Json).length - 1 :=
  ⟨rfl, rfl, rfl, by decide⟩

/-- C5 (amended): in a batch where exactly one row raises during field
extraction AND every other row yields a record with a valid date, that row
alone is excluded: the result table holds exactly the other rows' records
(up to date ordering) and exactly one fewer row than the raw input.
(Without the valid-date proviso the count can drop further, since rows
with a null date are also removed — see the counterexample.) -/
theorem c5_single_failure (pages : List NotionPage) (pre post : List Json) (bad : Json)
    (hsplit : collectPages pages = pre ++ bad :: post)
    (hbad : processRow bad = .error ())
    (hok : ∀ p ∈ pre ++ post, ∃ rec : Row, processRow p = .ok rec ∧ rec.date.isSome) :
    (load_data_from_notion pages).rows.length = (collectPages pages).length - 1 ∧
    (load_data_from_notion pages).rows.Perm
      ((pre ++ post).filterMap (fun p => (processRow p).toOption)) := by
  have hfbad : (processRow bad).toOption = none := by rw [hbad]; rfl
  have hproc : (collectPages pages).filterMap (fun p => (processRow p).toOption) =
      (pre ++ post).filterMap (fun p => (processRow p).toOption) := by
    rw [hsplit, List.filterMap_append, List.filterMap_cons, hfbad,
      List.filterMap_append]
  have hall : ∀ r ∈ (pre ++ post).filterMap (fun p => (processRow p).toOption),
      r.date.isSome := by
    intro r hr
    rcases List.mem_filterMap.1 hr with ⟨p, hp, hfp⟩
    rcases hok p hp with ⟨rec, hrec, hdate⟩
    rw [hrec] at hfp
    obtain rfl : rec = r := Option.some.inj hfp
    exact hdate
  have hlen2 : ((pre ++ post).filterMap (fun p => (processRow p).toOption)).length =
      (pre ++ post).length := by
    rw [length_filterMap_eq_countP]
    refine List.countP_eq_length.2 (fun p hp => ?_)
    rcases hok p hp with ⟨rec, hrec, _⟩
    simp [hrec, Except.toOption]
  have hclen : (collectPages pages).length = pre.length + post.length + 1 := by
    rw [hsplit]
    simp [List.length_append]
    omega
  unfold load_data_from_notion
  by_cases hp : ((collectPages pages).filterMap
      (fun p => (processRow p).toOption)).isEmpty
  · rw [hproc] at hp
    rw [List.isEmpty_iff] at hp
    have h0 : (pre ++ post).length = 0 := by rw [← hlen2, hp]; rfl
    rw [List.length_append] at h0
    have hpre : pre = [] := List.length_eq_zero.1 (by omega)
    have hpost : post = [] := List.length_eq_zero.1 (by omega)
    subst hpre
    subst hpost
    constructor
    · simp only [hproc, hp, List.isEmpty_nil, if_true, hclen]
      rfl
    · simp only [hproc, hp, List.isEmpty_nil, if_true]
      exact List.Perm.refl _
  · have hfilter : ((collectPages pages).filterMap
        (fun p => (processRow p).toOption)).filter (fun r => r.date.isSome) =
        (pre ++ post).filterMap (fun p => (processRow p).toOption) := by
      rw [hproc]
      exact List.filter_eq_self.2 hall
    simp only [hp, Bool.false_eq_true, if_false, hfilter]
    constructor
    · rw [List.length_insertionSort, hlen2, List.length_append, hclen]
      omega
    · exact List.perm_insertionSort rowLE _

/-- A raw row with a valid date, for the C5 witness. -/
def c5good : Json :=
  .obj [("properties", .obj
    [("Date", .obj [("date", .obj [("start", .str "2024-02-01")])])])]

/-- Witness for C5 (amended): the two-row batch where only the first row
throws and the other carries a valid date yields exactly one fewer row. -/
theorem c5_single_failure_witness :
    (load_data_from_notion [⟨[Json.null, c5good], false⟩]).rows.length =
      (collectPages [⟨[Json.null, c5good], false⟩]).length - 1 :=
  (c5_single_failure [⟨[Json.null, c5good], false⟩] [] [c5good] Json.null rfl rfl
    (by
      intro p hp
      rw [List.nil_append] at hp
      rcases List.mem_singleton.1 hp with rfl
      exact ⟨⟨.str "", 0, .str "", some 28446090, .str ""⟩, rfl, rfl⟩)).1

/-- All raw rows of all pages, in order. -/
def allRawRows (pages : List NotionPage) : List Json :=
  (pages.map (fun p => p.results)).flatten

/-- The number of raw rows whose field extraction raises. -/
def extractionFailures (rows : List Json) : Nat :=
  rows.countP (fun p => !(processRow p).toOption.isSome)

/-- The number of successfully extracted records carrying a null date. -/
def nullDateRecords (rows : List Json) : Nat :=
  (rows.filterMap (fun p => (processRow p).toOption)).countP
    (fun r => !r.date.isSome)

/-- A raw row that extracts with no failure but yields a null date. -/
def c7row : Json := .obj [("properties", .obj [])]

/-- C7 counterexample: a single page (has_more=false) whose one row
extracts without failure but carries no date: the sum of page row counts
is 1 and there are 0 extraction failures, so the claim predicts 1 row,
but the final table has 0 rows — null-date rows are also dropped. -/
theorem c7_counterexample :
    processRow c7row = .ok ⟨.str "", 0, .str "", none, .str ""⟩ ∧
    (([⟨[c7row], false⟩] : List NotionPage).map (fun p => p.results.length)).sum = 1 ∧
    extractionFailures (allRawRows [⟨[c7row], false⟩]) = 0 ∧
    (load_data_from_notion [⟨[c7row], false⟩]).rows.length = 0 :=
  ⟨rfl, rfl, rfl, rfl⟩

/-- Pagination collects exactly the concatenation of all pages' rows when
every page before the last reports `has_more`. -/
theorem collectPages_eq_join :
    ∀ pages : List NotionPage,
      (∀ i (h : i + 1 < pages.length),
        (pages.get ⟨i, Nat.lt_of_succ_lt h⟩).has_more = true) →
      collectPages pages = (pages.map (fun p => p.results)).flatten
  | [], _ => rfl
  | [p], _ => by
    cases hm : p.has_more <;> simp [collectPages, hm]
  | p :: q :: t, hmore => by
    have h0 : p.has_more = true :=
      hmore 0 (by simp only [List.length_cons]; omega)
    have ih := collectPages_eq_join (q :: t)
      (fun i h => hmore (i + 1) (by simp only [List.length_cons] at h ⊢; omega))
    show p.results ++ (if p.has_more then collectPages (q :: t) else []) =
      (List.map (fun p => p.results) (p :: q :: t)).flatten
    rw [h0, if_pos rfl, ih]
    rfl

/-- C7 (amended): for a source reporting `has_more=true` on the first N−1
pages and `false` on the Nth, ingestion requests all N pages (the raw rows
are exactly all pages' rows), and the final table's row count equals the
sum of all pages' row counts minus the number of row-level extraction
failures AND minus the number of surviving records whose date is null
(which the dropna step removes as well). -/
theorem c7_pagination (pages : List NotionPage) (hne : pages ≠ [])
    (hmore : ∀ i (h : i + 1 < pages.length),
      (pages.get ⟨i, Nat.lt_of_succ_lt h⟩).has_more = true) :
    collectPages pages = allRawRows pages ∧
    (load_data_from_notion pages).rows.length =
      (pages.map (fun p => p.results.length)).sum
        - extractionFailures (allRawRows pages)
        - nullDateRecords (allRawRows pages) := by
  have hjoin : collectPages pages = allRawRows pages :=
    collectPages_eq_join pages hmore
  refine ⟨hjoin, ?_⟩
  have hsum : (pages.map (fun p => p.results.length)).sum =
      (allRawRows pages).length := by
    unfold allRawRows
    rw [List.length_flatten, List.map_map]
    rfl
  have hA : ((allRawRows pages).filterMap (fun p => (processRow p).toOption)).length
      + extractionFailures (allRawRows pages) = (allRawRows pages).length := by
    rw [length_filterMap_eq_countP]
    exact countP_bool_split _ _
  have hB : (((allRawRows pages).filterMap
        (fun p => (processRow p).toOption)).filter (fun r => r.date.isSome)).length
      + nullDateRecords (allRawRows pages) =
      ((allRawRows pages).filterMap (fun p => (processRow p).toOption)).length := by
    rw [← List.countP_eq_length_filter]
    exact countP_bool_split _ _
  unfold load_data_from_notion
  rw [hjoin]
  by_cases hp : ((allRawRows pages).filterMap
      (fun p => (processRow p).toOption)).isEmpty
  · rw [List.isEmpty_iff] at hp
    rw [hp] at hA hB
    simp only [List.length_nil] at hA
    simp only [List.filter_nil, List.length_nil] at hB
    simp only [hp, List.isEmpty_nil, if_true]
    show ([] : List Row).length = _
    simp only [List.length_nil]
    omega
  · simp only [hp, Bool.false_eq_true, if_false]
    rw [List.length_insertionSort]
    omega

/-- A two-page source (has_more on the first page only) with one
valid-dated row per page, for the C7 witness. -/
def c7wpages : List NotionPage :=
  [⟨[.obj [("properties", .obj
      [("Date", .obj [("date", .obj [("start", .str "2024-03-01")])])])]], true⟩,
   ⟨[.obj [("properties", .obj
      [("Date", .obj [("date", .obj [("start", .str "2024-03-02")])])])]], false⟩]

/-- Witness for C7 (amended): both pages of the two-page source are
collected and the row-count identity holds. -/
theorem c7_pagination_witness :
    collectPages c7wpages = allRawRows c7wpages ∧
    (load_data_from_notion c7wpages).rows.length =
      (c7wpages.map (fun p => p.results.length)).sum
        - extractionFailures (allRawRows c7wpages)
        - nullDateRecords (allRawRows c7wpages) :=
  c7_pagination c7wpages (by simp [c7wpages]) (fun i h =>
    match i, h with
    | 0, _ => rfl
    | n + 1, h => absurd h (by simp [c7wpages]))
